import Mathlib

/-!
Verification of the aimmdb path-to-query compiler, catalog adapter, access
policies and uid encoding, shallowly embedded from the Python source
(`aimmdb/queries.py`, `aimmdb/adapters/aimm.py`, `aimmdb/access.py`,
`aimmdb/aimmdb/uid.py`).

Python dicts are embedded as association lists built by `dictInsert`
(update-first-occurrence-or-append, which matches CPython dict assignment
given the unique-key invariant dicts maintain).  Fallible Python code
(raising `KeyError` / `ValueError` / `HTTPException`) is embedded with
`Except`.  The MongoDB collection behind an adapter is embedded as a list of
documents in insertion order; `find` is `List.filter`, and the pymongo
cursor `skip`/`limit` semantics (where `limit 0` means "no limit", as
documented by pymongo) are embedded explicitly.
-/

namespace Aimmdb

/-- Association-list lookup (first match), the embedding of Python `dict`
lookup / `dict.get`. -/
def alookup {α β : Type} [DecidableEq α] : List (α × β) → α → Option β
  | [], _ => none
  | (k', v) :: rest, k => if k' = k then some v else alookup rest k

/-- Embedding of Python `dict` assignment `d[k] = v`: update the (unique)
existing binding in place, else append. -/
def dictInsert {α β : Type} [DecidableEq α] : List (α × β) → α → β → List (α × β)
  | [], k, v => [(k, v)]
  | (k', v') :: rest, k, v =>
      if k' = k then (k, v) :: rest else (k', v') :: dictInsert rest k v

/-- Embedding of `path[0::2]` (elements at even indices). -/
def evens {α : Type} : List α → List α
  | [] => []
  | [a] => [a]
  | a :: _ :: rest => a :: evens rest

/-- Embedding of `path[1::2]` (elements at odd indices). -/
def odds {α : Type} : List α → List α
  | [] => []
  | [_] => []
  | _ :: b :: rest => b :: odds rest

/-! ## The path compiler (`aimmdb/queries.py`, `parse_path`) -/

/-- The three operation variants produced by the path compiler
(`Distinct` / `Lookup` / `Keys` pydantic models in `aimmdb/queries.py`).
`select` is the mongo select dict (backing field name → value). -/
inductive Operation where
  | distinct (select : List (String × String)) (field : String)
  | lookup (select : List (String × String))
  | keys (select : List (String × String)) (ks : List String)
  deriving DecidableEq, Repr

/-- The fixed key→query-field mapping `key_to_query` from
`aimmdb/adapters/aimm.py`. -/
def key_to_query : List (String × String) :=
  [("uid", "uid"),
   ("element", "metadata.element.symbol"),
   ("edge", "metadata.element.edge"),
   ("dataset", "metadata.dataset"),
   ("sample", "metadata.sample_id")]

/-- The select dict comprehension
`{key_to_query[k]: v for k, v in zip(keys, values)}` of `parse_path`,
built by successive dict inserts.  (Every key is already validated to be in
`key_to_query` when this is evaluated, so the `getD` default is never
used.) -/
def buildSelect (kq : List (String × String)) (keys values : List String) :
    List (String × String) :=
  (keys.zip values).foldl (fun acc kv => dictInsert acc ((alookup kq kv.1).getD "") kv.2) []

/-- Embedding of `parse_path(path, key_to_query)` from `aimmdb/queries.py`.
Raising `KeyError` is embedded as `Except.error`.  The source's
`leftover_keys = valid_keys - set(keys)` is a Python set; it is embedded as
the (duplicate-free) list of keys of `kq` not occurring in `keys`, so the
claims about it are stated up to set membership. -/
def parse_path (path : List String) (kq : List (String × String)) :
    Except String Operation :=
  let keys := evens path
  let values := odds path
  if keys.all (fun k => (alookup kq k).isSome) then
    let select := buildSelect kq keys values
    let leftover := (kq.map Prod.fst).filter (fun k => ¬ keys.contains k)
    if keys.length = values.length + 1 then
      .ok (.distinct select ((alookup kq (keys.getLast?.getD "")).getD ""))
    else if keys.length = values.length then
      if keys.contains "uid" then
        .ok (.lookup select)
      else
        .ok (.keys select leftover)
    else
      .error "KeyError: len(keys), len(values)"
  else
    .error "KeyError: keys not in valid_keys"

/-! ## The catalog adapter (`aimmdb/adapters/aimm.py`, `AIMMCatalog`) -/

/-- READ/WRITE permission sentinels (`aimmdb/access.py`). -/
inductive Perm where
  | read
  | write
  deriving DecidableEq, Repr

/-- `fastapi.HTTPException` outcomes distinguished by status code:
400 (bad request) and 403 (forbidden), each with its `detail` string. -/
inductive HErr where
  | badRequest (detail : String)
  | forbidden (detail : String)
  deriving DecidableEq, Repr

/-- A document of the `metadata` mongo collection, projected onto what the
adapter queries: its `uid`, the dataset partition key
(`metadata.dataset`), the declared `specs`, the remaining queryable
metadata fields as a flat field-path → value map, and the payload
references `data_url` / `data_blob`. -/
structure Doc where
  uid : String
  dataset : String
  specs : List String
  fields : List (String × String)
  data_url : Option String
  data_blob : Option String
  deriving DecidableEq, Repr

/-- Field access used when evaluating a mongo select against a document. -/
def docField (d : Doc) (f : String) : Option String :=
  if f = "uid" then some d.uid
  else if f = "metadata.dataset" then some d.dataset
  else alookup d.fields f

/-- A mongo equality-select dict `{field: value, ...}` evaluated as a
predicate on a document. -/
def matchesSelect (sel : List (String × String)) (d : Doc) : Bool :=
  sel.all fun fv => docField d fv.1 = some fv.2

/-- The state of an `AIMMCatalog` node, projected onto what the verified
operations consume: the accumulated opaque query predicates (`queries`),
the consumed path, the `metadata` collection, the `samples` collection
(uid → denormalizable sample payload), the configured non-default keys of
`spec_to_document_model`, `dataset_to_specs`, the permission set the access
policy computes for the current principal per dataset (`permissions`), and
the pluggable pydantic validation outcome of each document model
(`validates`, keyed by the resolved model: `some tag` for a configured
model, `none` for the permissive default). -/
structure Catalog where
  queries : List (Doc → Bool)
  path : List String
  metadata_collection : List Doc
  sample_collection : List (String × String)
  spec_to_document_model_keys : List String
  dataset_to_specs : List (String × List String)
  permissions : String → List Perm
  validates : Option String → List (String × String) → Bool

/-- Embedding of `AIMMCatalog._build_mongo_query(*queries)`: conjunction of
the accumulated `queries` and the extra predicates; the empty combination
is the match-everything query `{}`. -/
def build_mongo_query (cat : Catalog) (extra : List (Doc → Bool)) : Doc → Bool :=
  let combined := cat.queries ++ extra
  if combined.isEmpty then fun _ => true else fun d => combined.all fun q => q d

/-- Embedding of `AIMMCatalog._get_document_model(specs)`: intersect the
configured `spec_to_document_model` keys with `specs`; more than one match
raises `KeyError`; otherwise the matched key (`some tag`), or `none`
standing for the permissive default model, is returned. -/
def get_document_model (cat : Catalog) (specs : List String) :
    Except String (Option String) :=
  let matched := cat.spec_to_document_model_keys.filter fun k => specs.contains k
  if matched.length > 1 then .error "KeyError: specs matched more than one document model"
  else .ok matched.head?

/-- Embedding of `AIMMCatalog._build_node_from_doc(doc)` up to the point
where the adapter wrapping the document is constructed: the document model
is resolved from the document's specs (an ambiguity `KeyError` propagates),
and the resulting node is identified by its document. -/
def build_node_from_doc (cat : Catalog) (d : Doc) : Except String Doc :=
  (get_document_model cat d.specs).map fun _ => d

/-- Result of `AIMMCatalog.__getitem__`: either a leaf node wrapping the
looked-up document, or a new catalog variation with the extended path. -/
inductive GetItemResult where
  | node (d : Doc)
  | variation (path : List String)
  deriving DecidableEq, Repr

/-- Embedding of `AIMMCatalog.__getitem__(key)`: extend the path, compile
it, and if it compiles to a `Lookup` resolve it now against the conjunction
of the accumulated queries and the select, demanding exactly one match
(`KeyError` on zero or on more than one); otherwise return the variation
with the extended path. -/
def getitem (cat : Catalog) (key : String) : Except String GetItemResult := do
  let path := cat.path ++ [key]
  let op ← parse_path path key_to_query
  match op with
  | .lookup select =>
      let docs := cat.metadata_collection.filter
        (build_mongo_query cat [matchesSelect select])
      match docs with
      | [] => .error "KeyError: not found"
      | [d] => (build_node_from_doc cat d).map .node
      | _ :: _ :: _ => .error "KeyError: matched multiple records"
  | _ => .ok (.variation path)

/-- Mongo `distinct(field)` over the documents matching a query: the
distinct values of `field` among them (first-occurrence order; documents
lacking the field contribute nothing). -/
def mongoDistinct (docs : List Doc) (field : String) : List String :=
  (docs.filterMap fun d => docField d field).dedup

/-- Embedding of `AIMMCatalog.__iter__` as the list of yielded keys.  The
operation of the node is `parse_path(self.path, key_to_query)` computed in
`__init__` (a path that fails to compile fails at construction).  Note:
the distinct-over-uid branch iterates every document matching
`_build_mongo_query(self.op.select)` — no payload-attached guard is
applied. -/
def iter_keys (cat : Catalog) : Except String (List String) := do
  let op ← parse_path cat.path key_to_query
  match op with
  | .keys _ ks => .ok ks
  | .distinct select field =>
      let docs := cat.metadata_collection.filter
        (build_mongo_query cat [matchesSelect select])
      if field = "uid" then
        .ok (docs.map Doc.uid)
      else
        .ok (mongoDistinct docs field)
  | .lookup _ => .error "RuntimeError: unreachable"

/-- pymongo cursor `.skip(skip).limit(limit)` semantics: `limit 0` is
documented by pymongo to mean "no limit". -/
def mongoSkipLimit {α : Type} (l : List α) (skip limit : Nat) : List α :=
  let l' := l.drop skip
  if limit = 0 then l' else l'.take limit

/-- Embedding of `AIMMCatalog._keys_slice(start, stop, direction=1)` for a
finite `stop`: `skip = start or 0`, `limit = stop - skip` (the claims range
over `start ≤ stop`, where Python and truncated `Nat` subtraction agree).
The `Keys` and distinct-over-other-field branches slice a Python list
(`[skip : skip+limit]`); the distinct-over-uid branch pushes `skip`/`limit`
down to the mongo cursor. -/
def keys_slice (cat : Catalog) (start : Option Nat) (stop : Nat) :
    Except String (List String) := do
  let skip := start.getD 0
  let limit := stop - skip
  let op ← parse_path cat.path key_to_query
  match op with
  | .keys _ ks => .ok ((ks.drop skip).take limit)
  | .distinct select field =>
      let docs := cat.metadata_collection.filter
        (build_mongo_query cat [matchesSelect select])
      if field = "uid" then
        .ok (mongoSkipLimit (docs.map Doc.uid) skip limit)
      else
        .ok (((mongoDistinct docs field).drop skip).take limit)
  | .lookup _ => .error "RuntimeError: unreachable"

/-- The body of a metadata-create request as `post_metadata` consumes it:
the supplied metadata as a top-level key → value dict, the declared specs,
and the `sample_id` the validated document's metadata exposes (`none` when
the resolved model has no such attribute, matching the
`AttributeError → None` fallback in the source). -/
structure PostRequest where
  metadata : List (String × String)
  specs : List String
  sample_id : Option String
  deriving DecidableEq, Repr

/-- The document `post_metadata` inserts: uid `key`, the request's dataset,
specs and metadata (queryable under the `metadata.` prefix, with the
resolved sample denormalized under `metadata.sample`), and — payload not
yet attached — `data_url = none`, `data_blob = none`. -/
def mkPostedDoc (req : PostRequest) (key dataset : String)
    (sample : Option String) : Doc :=
  let fields := req.metadata.map fun kv => ("metadata." ++ kv.1, kv.2)
  let fields := match sample with
    | none => fields
    | some s => dictInsert fields "metadata.sample" s
  { uid := key
    dataset := dataset
    specs := req.specs
    fields := fields
    data_url := none
    data_blob := none }

/-- Embedding of `AIMMCatalog.post_metadata(metadata, structure_family,
structure, specs)`.  `key` stands for the fresh `aimmdb.uid.uid()`.  The
result pairs the request outcome (the new uid, or the `HTTPException`
raised) with the state of the `metadata` collection after the call.  The
steps, in source order: path must be exactly `["uid"]` (400); `dataset`
must be present in the supplied metadata (400); the principal must hold
WRITE for that dataset (403); the document model is resolved from the specs
(ambiguity `KeyError` → 400); the document is validated against the
resolved model (`pydantic.ValidationError` → 400); if the dataset declares
allowed specs, the supplied specs must be a non-empty subset of them (400);
a declared `sample_id` must resolve in the samples collection (400), its
sample being denormalized into the document; finally the document is
inserted. -/
def post_metadata (cat : Catalog) (req : PostRequest) (key : String) :
    Except HErr String × List Doc :=
  if cat.path ≠ ["uid"] then
    (.error (.badRequest "AIMMCatalog only allows posting data to /uid"),
     cat.metadata_collection)
  else
    match alookup req.metadata "dataset" with
    | none =>
        (.error (.badRequest "AIMMCatalog requires that metadata contain a dataset key"),
         cat.metadata_collection)
    | some dataset =>
        if Perm.write ∉ cat.permissions dataset then
          (.error (.forbidden ("principal does not have write permissions to dataset " ++ dataset)),
           cat.metadata_collection)
        else
          match get_document_model cat req.specs with
          | .error e => (.error (.badRequest e), cat.metadata_collection)
          | .ok model =>
              if ¬ cat.validates model req.metadata then
                (.error (.badRequest "pydantic.ValidationError"), cat.metadata_collection)
              else
                match alookup cat.dataset_to_specs dataset with
                | some allowed =>
                    if req.specs.isEmpty ∨ ¬ req.specs.all allowed.contains then
                      (.error (.badRequest "specs are not a non-empty subset of allowed specs"),
                       cat.metadata_collection)
                    else
                      postSample cat req key dataset
                | none => postSample cat req key dataset
where
  /-- The sample-resolution and insertion tail of `post_metadata`. -/
  postSample (cat : Catalog) (req : PostRequest) (key dataset : String) :
      Except HErr String × List Doc :=
    match req.sample_id with
    | none =>
        (.ok key, cat.metadata_collection ++ [mkPostedDoc req key dataset none])
    | some sid =>
        match alookup cat.sample_collection sid with
        | none => (.error (.badRequest ("sample_id " ++ sid ++ " not found")),
                   cat.metadata_collection)
        | some s =>
            (.ok key, cat.metadata_collection ++ [mkPostedDoc req key dataset (some s)])

/-! ## The access policies (`aimmdb/access.py`) -/

/-- `tiled.utils.SpecialUsers` sentinels. -/
inductive SpecialUsers where
  | public
  | admin
  deriving DecidableEq, Repr

/-- A principal id as `get_id` returns it: a passed-through sentinel or the
username resolved from the principal's identities. -/
inductive UserId where
  | special (u : SpecialUsers)
  | named (s : String)
  deriving DecidableEq, Repr

/-- A (non-`None`) principal: a `SpecialUsers` sentinel, or an
authenticated principal with its `(provider, id)` identities. -/
inductive Principal where
  | special (u : SpecialUsers)
  | identified (identities : List (String × String))
  deriving DecidableEq, Repr

/-- Embedding of `str_to_permissions`: `"r"` → `{READ}`, `"rw"` →
`{READ, WRITE}`, anything else raises `ValueError`. -/
def str_to_permissions (s : String) : Except String (List Perm) :=
  if s = "r" then .ok [.read]
  else if s = "rw" then .ok [.read, .write]
  else .error ("ValueError: permission string " ++ s ++ " must be either r or rw")

/-- The `get_id` method shared verbatim by `SimpleAccessPolicy` and
`DatasetAccessPolicy`: `None` passes through as `None`, sentinels pass
through, and an authenticated principal resolves to the id of its first
identity from the policy's provider (`ValueError` when it has none). -/
def get_id (provider : String) : Option Principal → Except String (Option UserId)
  | none => .ok none
  | some (.special u) => .ok (some (.special u))
  | some (.identified ids) =>
      match ids.find? (fun p => p.1 = provider) with
      | some p => .ok (some (.named p.2))
      | none => .error "ValueError: principal has no identity from provider"

/-- The access-table key a configuration entry's name maps to: the string
`"public"` is replaced by the `SpecialUsers.public` sentinel. -/
def principalKey (s : String) : UserId :=
  if s = "public" then .special .public else .named s

/-- Access-table lookup by a possibly-`None` id (a `None` id is never a
key of the table, so it looks up to nothing). -/
def lookupId {β : Type} (l : List (UserId × β)) : Option UserId → Option β
  | none => none
  | some k => alookup l k

/-- The `SimpleAccessPolicy.__init__` loop: each configured name is mapped
through `principalKey` and its permission string through
`str_to_permissions` (whose `ValueError` propagates), building the
access-lists dict. -/
def simple_access_lists (acc : List (UserId × List Perm)) :
    List (String × String) → Except String (List (UserId × List Perm))
  | [] => .ok acc
  | (k, v) :: rest =>
      match str_to_permissions v with
      | .error e => .error e
      | .ok perms => simple_access_lists (dictInsert acc (principalKey k) perms) rest

/-- `SimpleAccessPolicy`: a provider name and the mapping of user ids to
global permission sets. -/
structure SimpleAccessPolicy where
  provider : String
  access_lists : List (UserId × List Perm)

/-- Embedding of `SimpleAccessPolicy(access_lists, provider=...)`. -/
def SimpleAccessPolicy.ofConfig (access_lists : List (String × String))
    (provider : String) : Except String SimpleAccessPolicy :=
  (simple_access_lists [] access_lists).map fun l => ⟨provider, l⟩

/-- Embedding of `SimpleAccessPolicy.permissions(principal)`: the admin
sentinel gets `{READ, WRITE}` unconditionally; otherwise the table is
consulted, defaulting to the empty set. -/
def SimpleAccessPolicy.permissions (p : SimpleAccessPolicy)
    (principal : Option Principal) : Except String (List Perm) := do
  let id ← get_id p.provider principal
  if id = some (.special .admin) then .ok [.read, .write]
  else .ok ((lookupId p.access_lists id).getD [])

/-- One principal's entry in `DatasetAccessPolicy.access_lists`: the
per-dataset table plus the `defaultdict` default applied to unlisted
datasets. -/
structure DatasetEntry where
  default : List Perm
  table : List (String × List Perm)
  deriving DecidableEq, Repr

/-- One principal's raw configuration for `DatasetAccessPolicy`: the
optional `"default"` permission string (popped from the per-dataset dict)
and the remaining dataset → permission-string entries. -/
structure DatasetCfg where
  default : Option String
  table : List (String × String)
  deriving DecidableEq, Repr

/-- The inner `__init__` loop filling one principal's per-dataset table. -/
def build_dataset_table (acc : List (String × List Perm)) :
    List (String × String) → Except String (List (String × List Perm))
  | [] => .ok acc
  | (ds, s) :: rest =>
      match str_to_permissions s with
      | .error e => .error e
      | .ok perms => build_dataset_table (dictInsert acc ds perms) rest

/-- The default-permission handling of `DatasetAccessPolicy.__init__`:
`value.pop("default", set())` followed by `str_to_permissions` — an absent
default (and, through the source's falsiness test `if default_perm:`, an
empty-string one) is the empty set. -/
def default_permissions (cfg : DatasetCfg) : Except String (List Perm) :=
  match cfg.default with
  | none => .ok []
  | some s => if s = "" then .ok [] else str_to_permissions s

/-- The `DatasetAccessPolicy.__init__` loop over principals, filling the
access-lists dict with each principal's default and per-dataset table. -/
def dataset_access_lists (acc : List (UserId × DatasetEntry)) :
    List (String × DatasetCfg) → Except String (List (UserId × DatasetEntry))
  | [] => .ok acc
  | (pid, cfg) :: rest =>
      match default_permissions cfg with
      | .error e => .error e
      | .ok dflt =>
          match build_dataset_table [] cfg.table with
          | .error e => .error e
          | .ok table =>
              dataset_access_lists (dictInsert acc (principalKey pid) ⟨dflt, table⟩) rest

/-- The entry `__init__` installs for `SpecialUsers.admin` before reading
any configuration: `defaultdict(lambda: {READ, WRITE})`. -/
def adminEntry : DatasetEntry := ⟨[.read, .write], []⟩

/-- `DatasetAccessPolicy`: a provider name and the mapping of user ids to
per-dataset permission entries. -/
structure DatasetAccessPolicy where
  provider : String
  access_lists : List (UserId × DatasetEntry)

/-- Embedding of `DatasetAccessPolicy(access_lists, provider=...)`. -/
def DatasetAccessPolicy.ofConfig (cfg : List (String × DatasetCfg))
    (provider : String) : Except String DatasetAccessPolicy :=
  (dataset_access_lists [(.special .admin, adminEntry)] cfg).map fun l => ⟨provider, l⟩

/-- Embedding of `DatasetAccessPolicy.permissions(principal, dataset)`: a
principal absent from the table gets the empty set; otherwise its
per-dataset `defaultdict` is consulted. -/
def DatasetAccessPolicy.permissions (p : DatasetAccessPolicy)
    (principal : Option Principal) (dataset : String) :
    Except String (List Perm) := do
  let id ← get_id p.provider principal
  match lookupId p.access_lists id with
  | none => .ok []
  | some entry => .ok ((alookup entry.table dataset).getD entry.default)

/-! ## The uid encoding (`aimmdb/aimmdb/uid.py`) -/

/-- The base-57 alphabet. -/
def uidAlphabet : List Char :=
  "23456789ABCDEFGHJKLMNPQRSTUVWXYZabcdefghijkmnopqrstuvwxyz".toList

/-- `_alphabet_len = len(_alphabet)` (= 57). -/
def alphabet_len : Nat := uidAlphabet.length

/-- `_uid_length = ceil(log_57(256**8))`, whose value is 11 (since
`57^10 < 2^64 ≤ 57^11`); the source computes it with floating-point
logarithms, embedded here as the integer it evaluates to. -/
def uid_length : Nat := 11

/-- The `while number:` loop of `int_to_string`: the base-57 digits of
`number`, least significant first. -/
def toDigitsRev (n : Nat) : List Char :=
  if n = 0 then []
  else uidAlphabet.getD (n % alphabet_len) ' ' :: toDigitsRev (n / alphabet_len)
decreasing_by exact Nat.div_lt_self (Nat.pos_of_ne_zero (by assumption)) (by decide)

/-- Embedding of `int_to_string(number, padding=_uid_length)`: emit base-57
digits least significant first, pad with `_alphabet[0]` up to `padding`,
and reverse. -/
def int_to_string (number : Nat) (padding : Nat := uid_length) : List Char :=
  let output := toDigitsRev number
  let output :=
    if padding ≠ 0 then
      output ++ List.replicate (padding - output.length) (uidAlphabet.getD 0 ' ')
    else output
  output.reverse

/-- Embedding of `string_to_int(string)`: base-57 Horner evaluation using
each character's alphabet index.  (Python's `str.index` raises on a
character outside the alphabet; `List.indexOf` returns the alphabet length
instead, a case no claim exercises since every produced digit is an
alphabet member.) -/
def string_to_int (s : List Char) : Nat :=
  s.foldl (fun number c => number * alphabet_len + uidAlphabet.indexOf c) 0

/-- Embedding of `uid()`: `int_to_string` of the integer decoded from 8
random bytes; `x` stands for that integer (any value below `2^64`). -/
def uid (x : Nat) : List Char := int_to_string x

/-! ## Helper lemmas -/

theorem evens_length {α : Type} : ∀ (l : List α), (evens l).length = (l.length + 1) / 2
  | [] => by simp [evens]
  | [_] => by simp [evens]
  | _ :: _ :: rest => by
      simp only [evens, List.length_cons, evens_length rest]
      omega

theorem odds_length {α : Type} : ∀ (l : List α), (odds l).length = l.length / 2
  | [] => by simp [odds]
  | [_] => by simp [odds]
  | _ :: _ :: rest => by
      simp only [odds, List.length_cons, odds_length rest]
      omega

/-! ## Claims about the path compiler -/

/-- C1: for every path, `parse_path` raises `KeyError` when some key is
outside the declared key set; with all keys valid it returns `Distinct`
over the select of the bound pairs with field the backing name of the last
key when there is one trailing unmatched key (odd number of segments),
`Lookup` over that select when keys and values are matched and `uid` is
bound, and otherwise `Keys` over that select with remaining keys exactly
the valid keys not bound by the path. -/
theorem parse_path_cases (path : List String) :
    ((∃ k ∈ evens path, alookup key_to_query k = none) →
        parse_path path key_to_query = .error "KeyError: keys not in valid_keys")
  ∧ ((∀ k ∈ evens path, (alookup key_to_query k).isSome) →
      (Odd path.length →
        parse_path path key_to_query =
          .ok (.distinct (buildSelect key_to_query (evens path) (odds path))
                ((alookup key_to_query ((evens path).getLast?.getD "")).getD "")))
      ∧ (Even path.length → "uid" ∈ evens path →
        parse_path path key_to_query =
          .ok (.lookup (buildSelect key_to_query (evens path) (odds path))))
      ∧ (Even path.length → "uid" ∉ evens path →
        ∃ rem, parse_path path key_to_query =
            .ok (.keys (buildSelect key_to_query (evens path) (odds path)) rem)
          ∧ ∀ k, k ∈ rem ↔ k ∈ key_to_query.map Prod.fst ∧ k ∉ evens path)) := by
  constructor
  · rintro ⟨k, hk, hnone⟩
    have hall : (evens path).all (fun k => (alookup key_to_query k).isSome) = false := by
      rw [List.all_eq_false]
      exact ⟨k, hk, by simp [hnone]⟩
    simp [parse_path, hall]
  · intro hvalid
    have hall : (evens path).all (fun k => (alookup key_to_query k).isSome) = true := by
      rw [List.all_eq_true]
      intro k hk
      simpa using hvalid k hk
    refine ⟨?_, ?_, ?_⟩
    · intro hodd
      have hlen : (evens path).length = (odds path).length + 1 := by
        rw [evens_length, odds_length]
        have := Nat.odd_iff.mp hodd
        omega
      simp [parse_path, hall, hlen]
    · intro heven huid
      have h2 : path.length % 2 = 0 := Nat.even_iff.mp heven
      have hlen1 : ¬ (evens path).length = (odds path).length + 1 := by
        rw [evens_length, odds_length]; omega
      have hlen2 : (evens path).length = (odds path).length := by
        rw [evens_length, odds_length]; omega
      have hc : (evens path).contains "uid" = true := by
        simpa [List.contains, List.elem_iff] using huid
      simp [parse_path, hall, hlen1, hlen2, hc, huid]
    · intro heven huid
      have h2 : path.length % 2 = 0 := Nat.even_iff.mp heven
      have hlen1 : ¬ (evens path).length = (odds path).length + 1 := by
        rw [evens_length, odds_length]; omega
      have hlen2 : (evens path).length = (odds path).length := by
        rw [evens_length, odds_length]; omega
      have hc : (evens path).contains "uid" = false := by
        simpa [List.contains, List.elem_iff] using huid
      refine ⟨(key_to_query.map Prod.fst).filter (fun k => ¬ (evens path).contains k),
              ?_, ?_⟩
      · simp [parse_path, hall, hlen1, hlen2, hc, huid]
      · intro k
        simp [List.mem_filter, List.contains, List.elem_iff]

/-- Witness for C1 at the concrete path `dataset/foo/element`, which has
one trailing unmatched key and so compiles to a `Distinct` operation. -/
theorem parse_path_cases_witness :
    parse_path ["dataset", "foo", "element"] key_to_query =
      .ok (.distinct [("metadata.dataset", "foo")] "metadata.element.symbol") := by
  have h := (parse_path_cases ["dataset", "foo", "element"]).2
    (by decide) |>.1 (by decide)
  simpa using h

/-- C4 counterexample: the path `uid/xxx/element` binds `uid` with the
value `xxx` (it is in the compiled select), yet the trailing unmatched key
makes the compiler return a `Distinct` operation — the trailing-key branch
is checked before the uid branch. -/
theorem parse_path_uid_bound_distinct_counterexample :
    parse_path ["uid", "xxx", "element"] key_to_query =
      .ok (.distinct [("uid", "xxx")] "metadata.element.symbol") := by rfl

/-- C4 (amended): whenever keys and values are matched (no trailing
unmatched key) and `uid` is among the bound keys, the compiled operation is
`Lookup` — uid takes priority over the `Keys` branch, which is only
reached when `uid` is unbound; but a path with a trailing unmatched key
compiles to `Distinct` even when `uid` is bound with a value. -/
theorem parse_path_uid_priority (path : List String)
    (hvalid : ∀ k ∈ evens path, (alookup key_to_query k).isSome)
    (hmatched : (evens path).length = (odds path).length)
    (huid : "uid" ∈ evens path) :
    parse_path path key_to_query =
      .ok (.lookup (buildSelect key_to_query (evens path) (odds path))) := by
  have hall : (evens path).all (fun k => (alookup key_to_query k).isSome) = true := by
    rw [List.all_eq_true]
    intro k hk
    simpa using hvalid k hk
  have hlen1 : ¬ (evens path).length = (odds path).length + 1 := by omega
  have hc : (evens path).contains "uid" = true := by
    simpa [List.contains, List.elem_iff] using huid
  simp [parse_path, hall, hlen1, hmatched, hc, huid]

/-- Witness for C4's amended theorem at the path `uid/abc`. -/
theorem parse_path_uid_priority_witness :
    parse_path ["uid", "abc"] key_to_query = .ok (.lookup [("uid", "abc")]) := by
  have h := parse_path_uid_priority ["uid", "abc"] (by decide) (by decide) (by decide)
  simpa using h

/-! ## Claims about the catalog adapter -/

/-- C2: when the extended path compiles to a `Lookup`, `__getitem__`
filters the collection by the conjunction of the accumulated queries and
the lookup select and demands exactly one match: zero matches raise
`KeyError` (not found), two or more matches raise `KeyError` (ambiguous),
and exactly one match returns the node built from the matched document. -/
theorem getitem_lookup_exactness (cat : Catalog) (key : String)
    (sel : List (String × String))
    (hop : parse_path (cat.path ++ [key]) key_to_query = .ok (.lookup sel)) :
    (cat.metadata_collection.filter (build_mongo_query cat [matchesSelect sel]) = [] →
       getitem cat key = .error "KeyError: not found")
  ∧ ((cat.metadata_collection.filter (build_mongo_query cat [matchesSelect sel])).length > 1 →
       getitem cat key = .error "KeyError: matched multiple records")
  ∧ (∀ d, cat.metadata_collection.filter (build_mongo_query cat [matchesSelect sel]) = [d] →
       getitem cat key = (build_node_from_doc cat d).map .node) := by
  refine ⟨?_, ?_, ?_⟩
  · intro hfilter
    simp [getitem, hop, hfilter, Bind.bind, Except.bind]
  · intro hlen
    rcases hl : cat.metadata_collection.filter (build_mongo_query cat [matchesSelect sel]) with
      _ | ⟨a, _ | ⟨b, t⟩⟩
    · rw [hl] at hlen; simp at hlen
    · rw [hl] at hlen; simp at hlen
    · simp [getitem, hop, hl, Bind.bind, Except.bind]
  · intro d hfilter
    simp [getitem, hop, hfilter, Bind.bind, Except.bind]

/-- Witness for C2: a catalog over a one-document collection at path
`uid`, looked up at that document's uid. -/
theorem getitem_lookup_exactness_witness :
    getitem ⟨[], ["uid"], [⟨"A", "ds1", [], [], none, none⟩], [], [], [],
             fun _ => [], fun _ _ => true⟩ "A" =
      .ok (.node ⟨"A", "ds1", [], [], none, none⟩) := by
  have h := (getitem_lookup_exactness
    ⟨[], ["uid"], [⟨"A", "ds1", [], [], none, none⟩], [], [], [],
     fun _ => [], fun _ _ => true⟩ "A" [("uid", "A")] (by rfl)).2.2
    ⟨"A", "ds1", [], [], none, none⟩ (by rfl)
  simpa [build_node_from_doc, get_document_model] using h

/-- C3: a `post_metadata` call whose supplied metadata lacks the `dataset`
key is rejected with a 400-equivalent request error and nothing is
persisted, for every catalog — in particular for every permission
assignment, so a principal holding WRITE still receives the request error,
not a permission error; and when `dataset` is present (at the write entry
point) but WRITE is absent from the principal's permissions for it, the
call is rejected with a 403-equivalent error with nothing persisted. -/
theorem post_metadata_dataset_before_permissions (cat : Catalog)
    (req : PostRequest) (key : String) :
    (alookup req.metadata "dataset" = none →
       (∃ d, (post_metadata cat req key).1 = .error (.badRequest d))
     ∧ (post_metadata cat req key).2 = cat.metadata_collection)
  ∧ (∀ ds, cat.path = ["uid"] → alookup req.metadata "dataset" = some ds →
       Perm.write ∉ cat.permissions ds →
       (post_metadata cat req key).1 =
         .error (.forbidden ("principal does not have write permissions to dataset " ++ ds))
     ∧ (post_metadata cat req key).2 = cat.metadata_collection) := by
  constructor
  · intro hds
    by_cases hp : cat.path = ["uid"]
    · refine ⟨⟨"AIMMCatalog requires that metadata contain a dataset key", ?_⟩, ?_⟩ <;>
        simp [post_metadata, hp, hds]
    · refine ⟨⟨"AIMMCatalog only allows posting data to /uid", ?_⟩, ?_⟩ <;>
        simp [post_metadata, hp]
  · intro ds hp hds hw
    constructor <;> simp [post_metadata, hp, hds, hw]

/-- Witness for C3 with a principal holding global READ+WRITE and metadata
lacking `dataset`: the call still fails as a request error with the store
untouched. -/
theorem post_metadata_dataset_before_permissions_witness :
    (∃ d, (post_metadata
        ⟨[], ["uid"], [], [], [], [], fun _ => [.read, .write], fun _ _ => true⟩
        ⟨[("foo", "bar")], [], none⟩ "NEW").1 = .error (.badRequest d))
  ∧ (post_metadata
        ⟨[], ["uid"], [], [], [], [], fun _ => [.read, .write], fun _ _ => true⟩
        ⟨[("foo", "bar")], [], none⟩ "NEW").2 = [] :=
  (post_metadata_dataset_before_permissions
    ⟨[], ["uid"], [], [], [], [], fun _ => [.read, .write], fun _ _ => true⟩
    ⟨[("foo", "bar")], [], none⟩ "NEW").1 (by rfl)

/-- C6: at the write entry point, with `dataset` supplied and WRITE held,
a specs list matching more than one configured document model makes
`post_metadata` fail with a 400-equivalent ambiguity error and leaves the
store unchanged; a specs list matching zero configured models resolves to
the permissive default document model (no error from model resolution). -/
theorem post_metadata_schema_ambiguity (cat : Catalog) (req : PostRequest)
    (key ds : String) (hpath : cat.path = ["uid"])
    (hds : alookup req.metadata "dataset" = some ds)
    (hw : Perm.write ∈ cat.permissions ds) :
    ((cat.spec_to_document_model_keys.filter (fun k => req.specs.contains k)).length > 1 →
       post_metadata cat req key =
         (.error (.badRequest "KeyError: specs matched more than one document model"),
          cat.metadata_collection))
  ∧ (cat.spec_to_document_model_keys.filter (fun k => req.specs.contains k) = [] →
       get_document_model cat req.specs = .ok none) := by
  constructor
  · intro hamb
    have hamb' : 1 < (List.filter (fun k => decide (k ∈ req.specs))
        cat.spec_to_document_model_keys).length := by simpa using hamb
    have hm : get_document_model cat req.specs =
        .error "KeyError: specs matched more than one document model" := by
      simp [get_document_model, hamb']
    simp [post_metadata, hpath, hds, hw, hm]
  · intro hnone
    have hnone' : List.filter (fun k => decide (k ∈ req.specs))
        cat.spec_to_document_model_keys = [] := by simpa using hnone
    simp [get_document_model, hnone']

/-- Witness for C6: two configured models (`XAS`, `XES`) both matched by
the supplied specs, with WRITE held — the write fails with the ambiguity
error and the one-document store is unchanged. -/
theorem post_metadata_schema_ambiguity_witness :
    post_metadata
      ⟨[], ["uid"], [⟨"A", "ds1", [], [], none, none⟩], [], ["XAS", "XES"], [],
       fun _ => [.read, .write], fun _ _ => true⟩
      ⟨[("dataset", "ds1")], ["XAS", "XES"], none⟩ "NEW" =
      (.error (.badRequest "KeyError: specs matched more than one document model"),
       [⟨"A", "ds1", [], [], none, none⟩]) :=
  (post_metadata_schema_ambiguity
    ⟨[], ["uid"], [⟨"A", "ds1", [], [], none, none⟩], [], ["XAS", "XES"], [],
     fun _ => [.read, .write], fun _ _ => true⟩
    ⟨[("dataset", "ds1")], ["XAS", "XES"], none⟩ "NEW" "ds1"
    rfl rfl (by decide)).1 (by decide)

/-- A record persisted with neither `data_url` nor `data_blob` (exactly
what `post_metadata` inserts before any payload is attached). -/
def pendingDoc : Doc := ⟨"PENDING1", "ds1", [], [], none, none⟩

/-- A catalog at the enumeration root `/uid` (a `Distinct` node over
`uid`) whose collection holds only the pending record. -/
def pendingCat : Catalog :=
  ⟨[], ["uid"], [pendingDoc], [], [], [], fun _ => [.read, .write], fun _ _ => true⟩

/-- C5 (evaluating the code at the failing input): the pending record —
`data_url` and `data_blob` both unset — is nevertheless yielded by
enumeration and by key slicing, because `AIMMCatalog.__iter__` and
`_keys_slice` query `_build_mongo_query(self.op.select)` with no
payload-attached guard. -/
theorem iter_yields_pending_record :
    pendingDoc.data_url = none ∧ pendingDoc.data_blob = none
  ∧ iter_keys pendingCat = .ok ["PENDING1"]
  ∧ keys_slice pendingCat none 1 = .ok ["PENDING1"] :=
  ⟨rfl, rfl, by rfl, by rfl⟩

/-- A two-document fixture for the pagination identity, at the `/uid`
enumeration root (distinct-over-uid mode); both documents have payloads
attached. -/
def sliceCat : Catalog :=
  ⟨[], ["uid"],
   [⟨"A", "ds1", [], [], some "file:///a", none⟩,
    ⟨"B", "ds1", [], [], some "file:///b", none⟩],
   [], [], [], fun _ => [.read, .write], fun _ _ => true⟩

/-- C7 (evaluating the code at the failing input): in the
distinct-over-uid iteration mode, with `N = 1`, `k = 0`, the slice
`(0, 0)` computes mongo `limit = 0`, which pymongo treats as "no limit",
so it yields the whole collection; hence
`list(slice(0,1)) ≠ list(slice(0,0)) + list(slice(0,1))`. -/
theorem keys_slice_pagination_violation :
    keys_slice sliceCat (some 0) 1 = .ok ["A"]
  ∧ keys_slice sliceCat (some 0) 0 = .ok ["A", "B"]
  ∧ (Except.ok ["A"] : Except String (List String)) ≠ .ok (["A", "B"] ++ ["A"]) :=
  ⟨by rfl, by rfl, by simp⟩

/-! ## Claims about the access policies -/

theorem alookup_dictInsert_ne {α β : Type} [DecidableEq α]
    (l : List (α × β)) (k k' : α) (v : β) (h : k' ≠ k) :
    alookup (dictInsert l k v) k' = alookup l k' := by
  induction l with
  | nil => simp [dictInsert, alookup, Ne.symm h]
  | cons p rest ih =>
      obtain ⟨a, b⟩ := p
      by_cases hak : a = k
      · subst hak
        simp [dictInsert, alookup, Ne.symm h]
      · simp only [dictInsert, if_neg hak, alookup]
        split


        · rfl
        · exact ih

theorem principalKey_ne_admin (s : String) : principalKey s ≠ .special .admin := by
  unfold principalKey
  split <;> simp

/-- Building the dataset access lists never disturbs the admin binding:
every configured key goes through `principalKey`, which never produces the
admin sentinel. -/
theorem dataset_access_lists_admin_lookup :
    ∀ (cfg : List (String × DatasetCfg)) (acc res : List (UserId × DatasetEntry)),
      dataset_access_lists acc cfg = .ok res →
      alookup res (.special .admin) = alookup acc (.special .admin) := by
  intro cfg
  induction cfg with
  | nil =>
      intro acc res h
      simp only [dataset_access_lists] at h
      cases h
      rfl
  | cons p rest ih =>
      intro acc res h
      obtain ⟨pid, c⟩ := p
      simp only [dataset_access_lists] at h
      split at h
      · exact absurd h (by simp)
      · split at h
        · exact absurd h (by simp)
        · rw [ih _ _ h]
          exact alookup_dictInsert_ne _ _ _ _ (Ne.symm (principalKey_ne_admin pid))

/-- C8: for both access policies, `get_id` maps the `None` principal to
the `None` id and the permission set computed for it is empty; the admin
sentinel principal always receives `{READ, WRITE}` — for the flat policy
regardless of the table, for the partitioned policy for every configuration
it is constructed from and every dataset; and a principal whose resolved id
is not in the access table receives the empty permission set rather than an
error. -/
theorem access_policy_anonymous_admin_missing :
    (∀ provider, get_id provider none = .ok none)
  ∧ (∀ p : SimpleAccessPolicy, p.permissions none = .ok [])
  ∧ (∀ (p : DatasetAccessPolicy) ds, p.permissions none ds = .ok [])
  ∧ (∀ p : SimpleAccessPolicy,
       p.permissions (some (.special .admin)) = .ok [.read, .write])
  ∧ (∀ cfg provider policy ds, DatasetAccessPolicy.ofConfig cfg provider = .ok policy →
       policy.permissions (some (.special .admin)) ds = .ok [.read, .write])
  ∧ (∀ (p : SimpleAccessPolicy) (pr : Option Principal) (id : UserId),
       get_id p.provider pr = .ok (some id) → id ≠ .special .admin →
       alookup p.access_lists id = none → p.permissions pr = .ok [])
  ∧ (∀ (p : DatasetAccessPolicy) (pr : Option Principal) (id : UserId) (ds : String),
       get_id p.provider pr = .ok (some id) →
       alookup p.access_lists id = none → p.permissions pr ds = .ok []) := by
  refine ⟨fun _ => rfl, ?_, ?_, ?_, ?_, ?_, ?_⟩
  · intro p
    simp [SimpleAccessPolicy.permissions, get_id, lookupId, Bind.bind, Except.bind]
  · intro p ds
    simp [DatasetAccessPolicy.permissions, get_id, lookupId, Bind.bind, Except.bind]
  · intro p
    simp [SimpleAccessPolicy.permissions, get_id, Bind.bind, Except.bind]
  · intro cfg provider policy ds hcfg
    rcases h' : dataset_access_lists [(.special .admin, adminEntry)] cfg with e | l
    · simp [DatasetAccessPolicy.ofConfig, h', Except.map] at hcfg
    · simp only [DatasetAccessPolicy.ofConfig, h', Except.map] at hcfg
      cases hcfg
      have hadm : alookup l (.special .admin) = some adminEntry := by
        rw [dataset_access_lists_admin_lookup cfg _ l h']
        rfl
      simp [DatasetAccessPolicy.permissions, get_id, lookupId, hadm, adminEntry,
            alookup, Bind.bind, Except.bind]
  · intro p pr id hid hadm hnone
    simp [SimpleAccessPolicy.permissions, hid, lookupId, hnone, hadm,
          Bind.bind, Except.bind]
  · intro p pr id ds hid hnone
    simp [DatasetAccessPolicy.permissions, hid, lookupId, hnone,
          Bind.bind, Except.bind]

/-- Witness for C8: a concrete partitioned-policy configuration for alice;
the admin sentinel still receives `{READ, WRITE}` on a dataset the table
never mentions, and an unknown named principal receives the empty set. -/
theorem access_policy_anonymous_admin_missing_witness :
    (DatasetAccessPolicy.permissions
       ⟨"toy", [(.special .admin, adminEntry),
                (.named "alice", ⟨[.read], [("ds1", [.read, .write])]⟩)]⟩
       (some (.special .admin)) "unlisted") = .ok [.read, .write]
  ∧ (DatasetAccessPolicy.permissions
       ⟨"toy", [(.special .admin, adminEntry),
                (.named "alice", ⟨[.read], [("ds1", [.read, .write])]⟩)]⟩
       (some (.identified [("toy", "mallory")])) "ds1") = .ok [] := by
  constructor
  · exact access_policy_anonymous_admin_missing.2.2.2.2.1
      [("alice", ⟨some "r", [("ds1", "rw")]⟩)] "toy"
      ⟨"toy", [(.special .admin, adminEntry),
               (.named "alice", ⟨[.read], [("ds1", [.read, .write])]⟩)]⟩
      "unlisted" (by rfl)
  · exact access_policy_anonymous_admin_missing.2.2.2.2.2.2
      ⟨"toy", [(.special .admin, adminEntry),
               (.named "alice", ⟨[.read], [("ds1", [.read, .write])]⟩)]⟩
      (some (.identified [("toy", "mallory")])) (.named "mallory") "ds1"
      (by rfl) (by rfl)

theorem str_to_permissions_write_read (s : String) (perms : List Perm)
    (h : str_to_permissions s = .ok perms) :
    Perm.write ∈ perms → Perm.read ∈ perms := by
  unfold str_to_permissions at h
  split_ifs at h <;> cases h <;> simp

theorem mem_dictInsert {α β : Type} [DecidableEq α]
    (l : List (α × β)) (k : α) (v : β) (p : α × β) :
    p ∈ dictInsert l k v → p = (k, v) ∨ p ∈ l := by
  induction l with
  | nil => intro h; simpa [dictInsert] using h
  | cons q rest ih =>
      obtain ⟨a, b⟩ := q
      intro h
      by_cases hak : a = k
      · subst hak
        simp [dictInsert] at h
        rcases h with h | h
        · exact .inl h
        · exact .inr (List.mem_cons_of_mem _ h)
      · simp only [dictInsert, if_neg hak, List.mem_cons] at h
        rcases h with h | h
        · exact .inr (by simp [h])
        · rcases ih h with h' | h'
          · exact .inl h'
          · exact .inr (List.mem_cons_of_mem _ h')

/-- The `SimpleAccessPolicy.__init__` loop only ever stores permission
sets produced by `str_to_permissions`, so an invariant of those sets is an
invariant of the whole table. -/
theorem simple_access_lists_write_read :
    ∀ (cfg : List (String × String)) (acc res : List (UserId × List Perm)),
      (∀ e ∈ acc, Perm.write ∈ e.2 → Perm.read ∈ e.2) →
      simple_access_lists acc cfg = .ok res →
      ∀ e ∈ res, Perm.write ∈ e.2 → Perm.read ∈ e.2 := by
  intro cfg
  induction cfg with
  | nil =>
      intro acc res hacc h
      simp only [simple_access_lists] at h
      cases h
      exact hacc
  | cons p rest ih =>
      intro acc res hacc h
      obtain ⟨k, v⟩ := p
      simp only [simple_access_lists] at h
      split at h
      · exact absurd h (by simp)
      · next perms hperms =>
          refine ih _ _ ?_ h
          intro e he
          rcases mem_dictInsert _ _ _ _ he with rfl | he'
          · exact str_to_permissions_write_read v perms hperms
          · exact hacc e he'

/-- The inner `DatasetAccessPolicy.__init__` loop only ever stores
permission sets produced by `str_to_permissions`. -/
theorem build_dataset_table_write_read :
    ∀ (cfg : List (String × String)) (acc res : List (String × List Perm)),
      (∀ e ∈ acc, Perm.write ∈ e.2 → Perm.read ∈ e.2) →
      build_dataset_table acc cfg = .ok res →
      ∀ e ∈ res, Perm.write ∈ e.2 → Perm.read ∈ e.2 := by
  intro cfg
  induction cfg with
  | nil =>
      intro acc res hacc h
      simp only [build_dataset_table] at h
      cases h
      exact hacc
  | cons p rest ih =>
      intro acc res hacc h
      obtain ⟨ds, s⟩ := p
      simp only [build_dataset_table] at h
      split at h
      · exact absurd h (by simp)
      · next perms hperms =>
          refine ih _ _ ?_ h
          intro e he
          rcases mem_dictInsert _ _ _ _ he with rfl | he'
          · exact str_to_permissions_write_read s perms hperms
          · exact hacc e he'

theorem default_permissions_write_read (cfg : DatasetCfg) (perms : List Perm)
    (h : default_permissions cfg = .ok perms) :
    Perm.write ∈ perms → Perm.read ∈ perms := by
  unfold default_permissions at h
  split at h
  · cases h; simp
  · split_ifs at h
    · cases h; simp
    · exact str_to_permissions_write_read _ _ h

/-- Every entry of a constructed dataset access table — the default and
each per-dataset set — contains READ whenever it contains WRITE. -/
theorem dataset_access_lists_write_read :
    ∀ (cfg : List (String × DatasetCfg)) (acc res : List (UserId × DatasetEntry)),
      (∀ e ∈ acc, (Perm.write ∈ e.2.default → Perm.read ∈ e.2.default) ∧
         ∀ t ∈ e.2.table, Perm.write ∈ t.2 → Perm.read ∈ t.2) →
      dataset_access_lists acc cfg = .ok res →
      ∀ e ∈ res, (Perm.write ∈ e.2.default → Perm.read ∈ e.2.default) ∧
         ∀ t ∈ e.2.table, Perm.write ∈ t.2 → Perm.read ∈ t.2 := by
  intro cfg
  induction cfg with
  | nil =>
      intro acc res hacc h
      simp only [dataset_access_lists] at h
      cases h
      exact hacc
  | cons p rest ih =>
      intro acc res hacc h
      obtain ⟨pid, c⟩ := p
      simp only [dataset_access_lists] at h
      split at h
      · exact absurd h (by simp)
      · next dflt hdflt =>
          split at h
          · exact absurd h (by simp)
          · next table htable =>
              refine ih _ _ ?_ h
              intro e he
              rcases mem_dictInsert _ _ _ _ he with rfl | he'
              · exact ⟨default_permissions_write_read c dflt hdflt,
                       build_dataset_table_write_read c.table [] table (by simp) htable⟩
              · exact hacc e he'

/-- C10: `str_to_permissions` maps `"r"` to `{READ}` and `"rw"` to
`{READ, WRITE}` and raises `ValueError` on every other string; every
permission set it produces contains READ whenever it contains WRITE; and
consequently every permission set stored in a policy constructed from
configuration strings — flat tables, partitioned per-dataset tables and
partitioned defaults alike — contains READ whenever it contains WRITE, so
write-only access is not configurable in either policy. -/
theorem str_to_permissions_spec :
    str_to_permissions "r" = .ok [.read]
  ∧ str_to_permissions "rw" = .ok [.read, .write]
  ∧ (∀ s, s ≠ "r" → s ≠ "rw" → ∃ e, str_to_permissions s = .error e)
  ∧ (∀ s perms, str_to_permissions s = .ok perms →
       Perm.write ∈ perms → Perm.read ∈ perms)
  ∧ (∀ cfg provider p, SimpleAccessPolicy.ofConfig cfg provider = .ok p →
       ∀ e ∈ p.access_lists, Perm.write ∈ e.2 → Perm.read ∈ e.2)
  ∧ (∀ cfg provider p, DatasetAccessPolicy.ofConfig cfg provider = .ok p →
       ∀ e ∈ p.access_lists,
         (Perm.write ∈ e.2.default → Perm.read ∈ e.2.default)
       ∧ ∀ t ∈ e.2.table, Perm.write ∈ t.2 → Perm.read ∈ t.2) := by
  refine ⟨rfl, rfl, ?_, str_to_permissions_write_read, ?_, ?_⟩
  · intro s h1 h2
    exact ⟨"ValueError: permission string " ++ s ++ " must be either r or rw",
           by simp [str_to_permissions, h1, h2]⟩
  · intro cfg provider p hp
    rcases h' : simple_access_lists [] cfg with e | l
    · simp [SimpleAccessPolicy.ofConfig, h', Except.map] at hp
    · simp only [SimpleAccessPolicy.ofConfig, h', Except.map] at hp
      cases hp
      exact simple_access_lists_write_read cfg [] l (by simp) h'
  · intro cfg provider p hp
    rcases h' : dataset_access_lists [(.special .admin, adminEntry)] cfg with e | l
    · simp [DatasetAccessPolicy.ofConfig, h', Except.map] at hp
    · simp only [DatasetAccessPolicy.ofConfig, h', Except.map] at hp
      cases hp
      refine dataset_access_lists_write_read cfg _ l ?_ h'
      intro e he
      rcases List.mem_singleton.mp he with rfl
      exact ⟨by simp [adminEntry], by simp [adminEntry]⟩

/-- Witness for C10: the unknown permission string `"w"` is rejected, and
in a concretely constructed flat policy the configured sets satisfy
WRITE-implies-READ. -/
theorem str_to_permissions_spec_witness :
    (∃ e, str_to_permissions "w" = .error e)
  ∧ (Perm.write ∈ [Perm.read, Perm.write] → Perm.read ∈ [Perm.read, Perm.write]) :=
  ⟨str_to_permissions_spec.2.2.1 "w" (by decide) (by decide),
   str_to_permissions_spec.2.2.2.2.1 [("alice", "rw")] "toy"
     ⟨"toy", [(.named "alice", [.read, .write])]⟩ (by rfl)
     (.named "alice", [.read, .write]) (by simp) ⟩

/-! ## Claims about the uid encoding -/

theorem alphabet_len_eq : alphabet_len = 57 := rfl

theorem uidAlphabet_indexOf_getD :
    ∀ i < 57, uidAlphabet.indexOf (uidAlphabet.getD i ' ') = i := by decide

theorem uidAlphabet_getD_mem : ∀ i < 57, uidAlphabet.getD i ' ' ∈ uidAlphabet := by
  decide

/-- Horner evaluation with an arbitrary accumulator splits off the
accumulator scaled by the base power. -/
theorem foldl_base57 (l : List Char) : ∀ acc : Nat,
    l.foldl (fun number c => number * alphabet_len + uidAlphabet.indexOf c) acc
      = acc * 57 ^ l.length
        + l.foldl (fun number c => number * alphabet_len + uidAlphabet.indexOf c) 0 := by
  induction l with
  | nil => intro acc; simp
  | cons c t ih =>
      intro acc
      simp only [List.foldl_cons, List.length_cons]
      rw [ih (acc * alphabet_len + uidAlphabet.indexOf c),
          ih (0 * alphabet_len + uidAlphabet.indexOf c), alphabet_len_eq]
      ring

theorem string_to_int_append (a b : List Char) :
    string_to_int (a ++ b) = string_to_int a * 57 ^ b.length + string_to_int b := by
  unfold string_to_int
  rw [List.foldl_append]
  exact foldl_base57 b _

theorem string_to_int_pad (n : Nat) :
    string_to_int (List.replicate n (uidAlphabet.getD 0 ' ')) = 0 := by
  induction n with
  | zero => rfl
  | succ n ih =>
      have h0 : uidAlphabet.indexOf (uidAlphabet.getD 0 ' ') = 0 := rfl
      simp only [List.replicate_succ, string_to_int, List.foldl_cons, h0] at ih ⊢
      simpa using ih

/-- The digit emission loop inverts Horner evaluation: reading the emitted
digits most-significant-first recovers the number. -/
theorem toDigitsRev_val : ∀ n : Nat, string_to_int (toDigitsRev n).reverse = n := by
  intro n
  induction n using Nat.strong_induction_on with
  | _ n ih =>
    rw [toDigitsRev]
    split
    · next h => simp [h, string_to_int]
    · next h =>
      rw [List.reverse_cons, string_to_int_append]
      have hih := ih (n / alphabet_len)
        (Nat.div_lt_self (Nat.pos_of_ne_zero h) (by decide))
      have hidx : uidAlphabet.indexOf (uidAlphabet.getD (n % 57) ' ') = n % 57 :=
        uidAlphabet_indexOf_getD _ (Nat.mod_lt _ (by decide))
      rw [hih]
      simp only [string_to_int, List.foldl_cons, List.foldl_nil, List.length_singleton,
                 pow_one, Nat.zero_mul, Nat.zero_add, alphabet_len_eq, hidx]
      omega

/-- A number below `57^k` emits at most `k` digits. -/
theorem toDigitsRev_length_le : ∀ (k n : Nat), n < 57 ^ k → (toDigitsRev n).length ≤ k := by
  intro k
  induction k with
  | zero =>
      intro n h
      rw [toDigitsRev]
      simp [show n = 0 by omega]
  | succ k ih =>
      intro n h
      rw [toDigitsRev]
      split
      · simp
      · simp only [List.length_cons]
        have hdiv : n / alphabet_len < 57 ^ k := by
          rw [alphabet_len_eq]
          rw [Nat.div_lt_iff_lt_mul (by norm_num : 0 < 57)]
          calc n < 57 ^ (k + 1) := h
            _ = 57 ^ k * 57 := by ring
        exact Nat.succ_le_succ (ih _ hdiv)

theorem toDigitsRev_mem : ∀ n c, c ∈ toDigitsRev n → c ∈ uidAlphabet := by
  intro n
  induction n using Nat.strong_induction_on with
  | _ n ih =>
    intro c hc
    rw [toDigitsRev] at hc
    split at hc
    · simp at hc
    · next h =>
      rcases List.mem_cons.mp hc with rfl | hc'
      · exact uidAlphabet_getD_mem _ (Nat.mod_lt _ (by decide))
      · exact ih _ (Nat.div_lt_self (Nat.pos_of_ne_zero h) (by decide)) c hc'

/-- C9: the uid encoding round-trips — `string_to_int ∘ int_to_string` is
the identity below `57^11`; the 57-symbol alphabet to the uid length 11
covers every 8-byte integer (`2^64 < 57^11`); and every string `uid()`
returns (the encoding of an arbitrary 8-byte value) has exactly 11
characters, all drawn from the alphabet. -/
theorem uid_roundtrip_and_shape (n : Nat) :
    (n < 57 ^ 11 → string_to_int (int_to_string n) = n)
  ∧ 2 ^ 64 < 57 ^ 11
  ∧ (n < 2 ^ 64 → (uid n).length = uid_length ∧ ∀ c ∈ uid n, c ∈ uidAlphabet) := by
  have hpad : ∀ m : Nat,
      int_to_string m
        = List.replicate (uid_length - (toDigitsRev m).length) (uidAlphabet.getD 0 ' ')
            ++ (toDigitsRev m).reverse := by
    intro m
    unfold int_to_string
    simp [uid_length, List.reverse_append, List.reverse_replicate]
  refine ⟨?_, by norm_num, ?_⟩
  · intro _
    rw [hpad n, string_to_int_append, string_to_int_pad, toDigitsRev_val]
    ring
  · intro h64
    have hlt : n < 57 ^ 11 := h64.trans (by norm_num)
    have hlen : (toDigitsRev n).length ≤ 11 := toDigitsRev_length_le 11 n hlt
    constructor
    · unfold uid
      rw [hpad n]
      simp only [List.length_append, List.length_replicate, List.length_reverse,
                 uid_length]
      omega
    · intro c hc
      unfold uid at hc
      rw [hpad n] at hc
      rcases List.mem_append.mp hc with hc' | hc'
      · have := List.eq_of_mem_replicate hc'
        subst this
        exact uidAlphabet_getD_mem 0 (by norm_num)
      · exact toDigitsRev_mem n c (List.mem_reverse.mp hc')

/-- Witness for C9 at the concrete value 12345. -/
theorem uid_roundtrip_and_shape_witness :
    string_to_int (int_to_string 12345) = 12345 ∧ (uid 12345).length = uid_length :=
  ⟨(uid_roundtrip_and_shape 12345).1 (by norm_num),
   ((uid_roundtrip_and_shape 12345).2.2 (by norm_num)).1⟩

end Aimmdb
